import Mathlib

/-!
Verification development for the `Database` helper of `src/postgre.py`.

The helper builds parameterized SQL statements out of three kinds of
fragments (mirroring `psycopg2.sql`): literal SQL text (`sql.SQL`),
escaped identifiers (`sql.Identifier`) and positional placeholders
(`sql.Placeholder`).  Each public operation is modelled as the trace of
`cursor.execute(composed_statement, params)` calls it performs, and a
small relational-engine model interprets the emitted statement shapes so
that round-trip and frame properties can be stated.
-/

/-- Scalar values bound as statement parameters and stored in table rows. -/
inductive Value
  | int : Int → Value
  | str : String → Value
  | null : Value
deriving DecidableEq, Repr

/-- One piece of a composed SQL statement, mirroring `psycopg2.sql`:
`raw s` is `sql.SQL(s)` (verbatim SQL text), `ident s` is
`sql.Identifier(s)` (a quoted, escape-protected identifier) and
`placeholder` is `sql.Placeholder()` (rendered `%s`). -/
inductive SqlFrag
  | raw : String → SqlFrag
  | ident : String → SqlFrag
  | placeholder : SqlFrag
deriving DecidableEq, Repr

/-- Doubling of embedded double quotes (`s.replace('"', '""')`). -/
def escapeQuotes : List Char → List Char
  | [] => []
  | c :: cs => if c = '\"' then '\"' :: '\"' :: escapeQuotes cs else c :: escapeQuotes cs

/-- Identifier quoting as psycopg2 performs it: wrap in double quotes,
doubling any embedded double quote. -/
def quoteIdent (s : String) : String :=
  "\"" ++ String.mk (escapeQuotes s.data) ++ "\""

/-- Render one fragment to SQL text. -/
def SqlFrag.render : SqlFrag → String
  | .raw s => s
  | .ident s => quoteIdent s
  | .placeholder => "%s"

/-- Render a composed fragment list to the SQL text sent to the engine. -/
def renderFrags : List SqlFrag → String
  | [] => ""
  | f :: fs => f.render ++ renderFrags fs

/-- The `join` of `psycopg2.sql.Composable`: interleave a separator
between a list of composed pieces. -/
def sqlJoin (sep : List SqlFrag) : List (List SqlFrag) → List SqlFrag
  | [] => []
  | [x] => x
  | x :: y :: ys => x ++ sep ++ sqlJoin sep (y :: ys)

/-- One `cursor.execute` call: the composed statement and the positional
parameters bound with it. -/
structure Exec where
  frags : List SqlFrag
  params : List Value
deriving DecidableEq, Repr

/-- Python exceptions the insert path can raise before reaching the
engine. -/
inductive PyErr
  | valueError : String → PyErr
  | keyError : String → PyErr
  | typeError : PyErr
  | indexError : PyErr
deriving DecidableEq, Repr

/-- Errors raised by the database engine when executing a statement. -/
inductive SqlError
  | undefinedTable : String → SqlError
  | undefinedColumn : String → SqlError
  | duplicateColumn : SqlError
  | syntaxError : SqlError
deriving DecidableEq, Repr

/-- An error from either layer: a Python-side error raised before any
statement is sent, or an engine-side SQL error. -/
inductive OpErr
  | py : PyErr → OpErr
  | sql : SqlError → OpErr
deriving DecidableEq, Repr

/-- A Python `dict` of column names to values, as an insertion-ordered
association list (Python dicts preserve insertion order and have
pairwise-distinct keys). -/
abbrev Dict := List (String × Value)

/-- The keys of a dict, in insertion order (`d.keys()`). -/
def dkeys (d : Dict) : List String := d.map Prod.fst

/-- Dictionary lookup (`d[k]`), `none` when the key is absent. -/
def dlookup (d : Dict) (k : String) : Option Value :=
  match d with
  | [] => none
  | p :: ps => if p.1 = k then some p.2 else dlookup ps k

/-- One element of the sequence passed to `insert`: either a row dict or
a tuple (the code rejects tuples). -/
inductive RowItem
  | dict : Dict → RowItem
  | tup : List Value → RowItem
deriving DecidableEq, Repr

/-- The `data` argument of `insert`: a single dict, a sequence, or a
non-subscriptable scalar such as a number. -/
inductive InsertData
  | dict : Dict → InsertData
  | list : List RowItem → InsertData
  | scalar : Value → InsertData
deriving DecidableEq, Repr

/-- Evaluation of `[row[col] for col in columns]` for one row dict:
stops with a `KeyError` at the first missing key. -/
def lookupAll (d : Dict) : List String → Except PyErr (List Value)
  | [] => .ok []
  | c :: cs =>
    match dlookup d c with
    | none => .error (.keyError c)
    | some v =>
      match lookupAll d cs with
      | .error e => .error e
      | .ok vs => .ok (v :: vs)

/-- Evaluation of `[row[col] for col in columns]` for one row item: a
tuple indexed by a string raises `TypeError`. -/
def rowLookup (columns : List String) : RowItem → Except PyErr (List Value)
  | .dict d => lookupAll d columns
  | .tup _ => .error .typeError

/-- Evaluation of `values = [[row[col] for col in columns] for row in data]`:
the whole comprehension is evaluated before any statement is executed,
so the first failing row aborts the call with nothing sent. -/
def rowsValues (columns : List String) : List RowItem → Except PyErr (List (List Value))
  | [] => .ok []
  | r :: rs =>
    match rowLookup columns r with
    | .error e => .error e
    | .ok vs =>
      match rowsValues columns rs with
      | .error e => .error e
      | .ok vss => .ok (vs :: vss)

/-- The error message of the explicit `raise ValueError` in `insert`. -/
def insertValueErrorMsg : String :=
  "Insert data must be a list of dictionaries with column names as keys."

/-- Column derivation and value extraction of `insert` for a non-empty
item list: `columns = data[0].keys()`, values from every row. -/
def planList : RowItem → List RowItem → Except PyErr (List String × List (List Value))
  | .tup _, _ => .error (.valueError insertValueErrorMsg)
  | .dict d0, rest =>
    match rowsValues (dkeys d0) (RowItem.dict d0 :: rest) with
    | .error e => .error e
    | .ok vss => .ok (dkeys d0, vss)

/-- The validation and extraction phase of `Database.insert`, everything
before the first `cursor.execute`: a single dict is wrapped into a
one-element list; `data[0]` on an empty list raises `IndexError` and on
a non-subscriptable scalar raises `TypeError`. -/
def Database.insertPlan : InsertData → Except PyErr (List String × List (List Value))
  | .dict d => planList (RowItem.dict d) []
  | .list [] => .error .indexError
  | .list (first :: rest) => planList first rest
  | .scalar _ => .error .typeError

/-- The composed statement
`INSERT INTO {table} ({cols}) VALUES ({placeholders})` exactly as
`sql.SQL("INSERT INTO {} ({}) VALUES ({})").format(...)` builds it. -/
def insertFrags (t : String) (cols : List String) : List SqlFrag :=
  [SqlFrag.raw "INSERT INTO ", SqlFrag.ident t, SqlFrag.raw " ("]
    ++ sqlJoin [SqlFrag.raw ", "] (cols.map fun c => [SqlFrag.ident c])
    ++ [SqlFrag.raw ") VALUES ("]
    ++ sqlJoin [SqlFrag.raw ", "] (List.replicate cols.length [SqlFrag.placeholder])
    ++ [SqlFrag.raw ")"]

/-- Trace semantics of `Database.insert`: the list of `execute` calls it
performs, or the Python error that aborts it with nothing executed. -/
def Database.insert (t : String) (data : InsertData) : Except PyErr (List Exec) :=
  match Database.insertPlan data with
  | .error e => .error e
  | .ok (cols, vss) => .ok (vss.map fun vs => ⟨insertFrags t cols, vs⟩)

/-- Truthiness of the optional `where` argument: `None` and the empty
dict are both falsy, so neither contributes a WHERE clause or params. -/
def whereList : Option Dict → Dict
  | none => []
  | some d => d

/-- An equality clause `col=%s [sep col=%s ...]` as built by joining
`Composed([Identifier(k), SQL("=%s")])` pieces. -/
def eqClause (sep : String) (keys : List String) : List SqlFrag :=
  sqlJoin [SqlFrag.raw sep] (keys.map fun k => [SqlFrag.ident k, SqlFrag.raw "=%s"])

/-- The composed SELECT statement: `SELECT {cols} FROM {table}` with
` WHERE k=%s AND ...` appended only when the condition dict is truthy. -/
def selectFrags (t : String) (cols : List String) (wkeys : List String) : List SqlFrag :=
  [SqlFrag.raw "SELECT "]
    ++ sqlJoin [SqlFrag.raw ", "] (cols.map fun c => [SqlFrag.ident c])
    ++ [SqlFrag.raw " FROM ", SqlFrag.ident t]
    ++ (if wkeys = [] then []
        else SqlFrag.raw " WHERE " :: eqClause " AND " wkeys)

/-- Trace semantics of `Database.select`: exactly one `execute` of the
composed SELECT with the condition values as params. -/
def Database.select (t : String) (cols : List String) (w : Option Dict) : List Exec :=
  [⟨selectFrags t cols (dkeys (whereList w)), (whereList w).map Prod.snd⟩]

/-- The composed UPDATE statement
`UPDATE {t} SET {set} WHERE {where}`; the WHERE keyword is present even
when the condition key list is empty. -/
def updateFrags (t : String) (skeys wkeys : List String) : List SqlFrag :=
  [SqlFrag.raw "UPDATE ", SqlFrag.ident t, SqlFrag.raw " SET "]
    ++ eqClause ", " skeys
    ++ [SqlFrag.raw " WHERE "]
    ++ eqClause " AND " wkeys

/-- Trace semantics of `Database.update`: one `execute` with SET values
bound before WHERE values. -/
def Database.update (t : String) (data w : Dict) : List Exec :=
  [⟨updateFrags t (dkeys data) (dkeys w),
    data.map Prod.snd ++ w.map Prod.snd⟩]

/-- The composed DELETE statement `DELETE FROM {t} WHERE {where}`; the
WHERE keyword is unconditional. -/
def deleteFrags (t : String) (wkeys : List String) : List SqlFrag :=
  [SqlFrag.raw "DELETE FROM ", SqlFrag.ident t, SqlFrag.raw " WHERE "]
    ++ eqClause " AND " wkeys

/-- Trace semantics of `Database.delete`. -/
def Database.delete (t : String) (w : Dict) : List Exec :=
  [⟨deleteFrags t (dkeys w), w.map Prod.snd⟩]

/-- The composed DROP statement. -/
def dropFrags (t : String) : List SqlFrag :=
  [SqlFrag.raw "DROP TABLE IF EXISTS ", SqlFrag.ident t]

/-- Trace semantics of `Database.drop_table`. -/
def Database.drop_table (t : String) : List Exec :=
  [⟨dropFrags t, []⟩]

/-- The `', '.join(f"{name} {ctype}" ...)` string of `create_table`:
column names and type declarations concatenated into raw SQL text. -/
def createCols (columns : List (String × String)) : String :=
  String.intercalate ", " (columns.map fun p => p.1 ++ " " ++ p.2)

/-- The composed CREATE statement: only the table name goes through
`sql.Identifier`; the whole column list (names and types) is inserted as
one `sql.SQL(cols)` raw fragment. -/
def createTableFrags (t : String) (columns : List (String × String)) : List SqlFrag :=
  [SqlFrag.raw "CREATE TABLE IF NOT EXISTS ", SqlFrag.ident t,
   SqlFrag.raw " (", SqlFrag.raw (createCols columns), SqlFrag.raw ")"]

/-- The literal catalog query checking table existence; the table name
is bound as a parameter, not interpolated. -/
def tableExistsQuery : String :=
  "\n                SELECT EXISTS (\n                    SELECT FROM information_schema.tables \n                    WHERE table_schema = 'public' AND table_name = %s\n                )\n            "

/-- The literal catalog query counting the table's columns. -/
def columnCountQuery : String :=
  "\n                    SELECT COUNT(*) FROM information_schema.columns\n                    WHERE table_schema = 'public' AND table_name = %s\n                "

/-- The outcome `create_table` reports on its final `print`. -/
inductive CreateOutcome
  | newlyCreated
  | alreadyExisted
  | creationFailed
deriving DecidableEq, Repr

/-- Trace and reported outcome of `Database.create_table`.  The booleans
`tExists` and `colCount` are the engine's answers to the two catalog
queries issued after the CREATE statement; the column-count query is
only executed when the table exists, and the outcome follows the code's
branches: absent table reports the unknown-error message, matching
column count reports newly created, any other count reports already
exists. -/
def Database.create_table (t : String) (columns : List (String × String))
    (tExists : Bool) (colCount : Nat) : List Exec × CreateOutcome :=
  let e1 : Exec := ⟨createTableFrags t columns, []⟩
  let e2 : Exec := ⟨[SqlFrag.raw tableExistsQuery], [Value.str t]⟩
  if tExists then
    let e3 : Exec := ⟨[SqlFrag.raw columnCountQuery], [Value.str t]⟩
    ([e1, e2, e3],
     if colCount = columns.length then CreateOutcome.newlyCreated
     else CreateOutcome.alreadyExisted)
  else ([e1, e2], CreateOutcome.creationFailed)

/-!
Relational-engine model.  The helper sends flat single-table statements
to an external PostgreSQL engine; the model below interprets exactly the
statement shapes the helper emits (equality-AND conditions, positional
parameters in the emitted order), including the engine's rejection of
syntactically malformed text such as a WHERE keyword followed by an
empty predicate.
-/

/-- A table: ordered column names and rows aligned with them. -/
structure Table where
  cols : List String
  rows : List (List Value)
deriving DecidableEq, Repr

/-- The database: named tables. -/
abbrev DbState := List (String × Table)

/-- Look a table up by name. -/
def getTable (st : DbState) (t : String) : Option Table :=
  match st with
  | [] => none
  | p :: rest => if p.1 = t then some p.2 else getTable rest t

/-- Replace the named table's contents. -/
def setTable (st : DbState) (t : String) (tb : Table) : DbState :=
  match st with
  | [] => []
  | p :: rest => if p.1 = t then (p.1, tb) :: rest else p :: setTable rest t tb

/-- Index of a column within a column list, `none` when absent. -/
def colIdx (c : String) : List String → Option Nat
  | [] => none
  | x :: xs => if x = c then some 0 else (colIdx c xs).map (· + 1)

/-- Positional access into a row, NULL-padded past the end. -/
def nthVal : List Value → Nat → Value
  | [], _ => Value.null
  | v :: _, 0 => v
  | _ :: vs, n + 1 => nthVal vs n

/-- Value of a named column in a row aligned with `tcols`. -/
def rowVal (tcols : List String) (row : List Value) (c : String) : Option Value :=
  (colIdx c tcols).map (nthVal row)

/-- First referenced column that does not exist in the table. -/
def unknownCol (tcols : List String) (cs : List String) : Option String :=
  cs.find? fun c => (colIdx c tcols).isNone

/-- Whether a row satisfies an equality-AND condition list. -/
def rowMatches (tcols : List String) (row : List Value) (wps : Dict) : Bool :=
  wps.all fun p => decide (rowVal tcols row p.1 = some p.2)

/-- The row built by `INSERT INTO t (insCols) VALUES (...)` with bound
values `vals`: named columns receive their value, unnamed columns
default to NULL. -/
def mkRow (tcols insCols : List String) (vals : List Value) : List Value :=
  tcols.map fun c =>
    match colIdx c insCols with
    | some j => nthVal vals j
    | none => Value.null

/-- Engine execution of the emitted INSERT statement shape.  An empty
column list renders `INSERT INTO t () VALUES ()`, which the engine
rejects as a syntax error. -/
def engineInsert (st : DbState) (t : String) (insCols : List String)
    (vals : List Value) : Except SqlError DbState :=
  if insCols = [] then .error .syntaxError
  else
    match getTable st t with
    | none => .error (.undefinedTable t)
    | some tb =>
      match unknownCol tb.cols insCols with
      | some c => .error (.undefinedColumn c)
      | none =>
        if insCols.Nodup then
          .ok (setTable st t ⟨tb.cols, tb.rows ++ [mkRow tb.cols insCols vals]⟩)
        else .error .duplicateColumn

/-- Engine execution of the emitted SELECT statement shape: filter by
the equality condition, project to the selected columns in the order of
the select list. -/
def engineSelect (st : DbState) (t : String) (projCols : List String)
    (wps : Dict) : Except SqlError (List (List Value)) :=
  if projCols = [] then .error .syntaxError
  else
    match getTable st t with
    | none => .error (.undefinedTable t)
    | some tb =>
      match unknownCol tb.cols (projCols ++ dkeys wps) with
      | some c => .error (.undefinedColumn c)
      | none =>
        .ok ((tb.rows.filter fun row => rowMatches tb.cols row wps).map
          fun row => projCols.map fun c => (rowVal tb.cols row c).getD Value.null)

/-- A row after `SET k=%s, ...`: listed columns take their new value,
the rest keep the old one. -/
def updRow (tcols : List String) (row : List Value) (sps : Dict) : List Value :=
  (tcols.zip row).map fun p => (dlookup sps p.1).getD p.2

/-- Engine execution of the emitted UPDATE statement shape.  The helper
always writes the WHERE keyword, so an empty SET or condition list makes
the statement text malformed and the engine reports a syntax error. -/
def engineUpdate (st : DbState) (t : String) (sps wps : Dict) :
    Except SqlError DbState :=
  if sps = [] then .error .syntaxError
  else if wps = [] then .error .syntaxError
  else
    match getTable st t with
    | none => .error (.undefinedTable t)
    | some tb =>
      match unknownCol tb.cols (dkeys sps ++ dkeys wps) with
      | some c => .error (.undefinedColumn c)
      | none =>
        .ok (setTable st t ⟨tb.cols, tb.rows.map fun row =>
          if rowMatches tb.cols row wps then updRow tb.cols row sps else row⟩)

/-- Engine execution of the emitted DELETE statement shape; as with
UPDATE, the WHERE keyword is always present so an empty condition list
is a syntax error. -/
def engineDelete (st : DbState) (t : String) (wps : Dict) :
    Except SqlError DbState :=
  if wps = [] then .error .syntaxError
  else
    match getTable st t with
    | none => .error (.undefinedTable t)
    | some tb =>
      match unknownCol tb.cols (dkeys wps) with
      | some c => .error (.undefinedColumn c)
      | none =>
        .ok (setTable st t ⟨tb.cols, tb.rows.filter fun row =>
          !(rowMatches tb.cols row wps)⟩)

/-- The per-row `cursor.execute(insert_sql, row)` loop of `insert`,
threading the engine state. -/
def runInserts (st : DbState) (t : String) (cols : List String) :
    List (List Value) → Except SqlError DbState
  | [] => .ok st
  | vs :: rest =>
    match engineInsert st t cols vs with
    | .error e => .error e
    | .ok st2 => runInserts st2 t cols rest

/-- End-to-end semantics of `Database.insert`: validation and extraction
first (any Python error aborts with zero statements executed), then one
engine INSERT per row with that row's values, in order. -/
def Database.insertRun (st : DbState) (t : String) (data : InsertData) :
    Except OpErr DbState :=
  match Database.insertPlan data with
  | .error e => .error (.py e)
  | .ok (cols, vss) =>
    match runInserts st t cols vss with
    | .error e => .error (.sql e)
    | .ok st2 => .ok st2

/-- End-to-end semantics of `Database.select`: the single emitted SELECT
is executed and the unchanged state is returned with the result rows. -/
def Database.selectRun (st : DbState) (t : String) (cols : List String)
    (w : Option Dict) : Except SqlError (DbState × List (List Value)) :=
  match engineSelect st t cols (whereList w) with
  | .error e => .error e
  | .ok rs => .ok (st, rs)

/-- End-to-end semantics of `Database.update`: the single emitted UPDATE
(with SET pairs from `data` and condition pairs from `w`) is executed. -/
def Database.updateRun (st : DbState) (t : String) (data w : Dict) :
    Except SqlError DbState :=
  engineUpdate st t data w

/-- End-to-end semantics of `Database.delete`. -/
def Database.deleteRun (st : DbState) (t : String) (w : Dict) :
    Except SqlError DbState :=
  engineDelete st t w

/-- Raw-text fragments of a composed statement, in order. -/
def rawsOf : List SqlFrag → List String
  | [] => []
  | SqlFrag.raw s :: fs => s :: rawsOf fs
  | _ :: fs => rawsOf fs

/-- Identifier fragments of a composed statement, in order. -/
def identsOf : List SqlFrag → List String
  | [] => []
  | SqlFrag.ident c :: fs => c :: identsOf fs
  | _ :: fs => identsOf fs

/-- The fixed literal SQL texts the five DML/DDL builders use; this list
is a constant of the program, independent of every caller-supplied
name. -/
def dmlTemplates : List String :=
  ["INSERT INTO ", " (", ") VALUES (", ")", ", ",
   "SELECT ", " FROM ", " WHERE ", "=%s", " AND ",
   "UPDATE ", " SET ", "DELETE FROM ", "DROP TABLE IF EXISTS "]

/-!
General lemmas about fragments, composition and rendering.
-/

theorem rawsOf_append (a b : List SqlFrag) :
    rawsOf (a ++ b) = rawsOf a ++ rawsOf b := by
  induction a with
  | nil => rfl
  | cons f fs ih => cases f <;> simp [rawsOf, ih]

theorem identsOf_append (a b : List SqlFrag) :
    identsOf (a ++ b) = identsOf a ++ identsOf b := by
  induction a with
  | nil => rfl
  | cons f fs ih => cases f <;> simp [identsOf, ih]

theorem renderFrags_append (a b : List SqlFrag) :
    renderFrags (a ++ b) = renderFrags a ++ renderFrags b := by
  induction a with
  | nil =>
    show renderFrags b = "" ++ renderFrags b
    rw [String.empty_append]
  | cons f fs ih => simp [renderFrags, ih, String.append_assoc]

theorem mem_rawsOf {s : String} {fs : List SqlFrag} :
    s ∈ rawsOf fs ↔ SqlFrag.raw s ∈ fs := by
  induction fs with
  | nil => simp [rawsOf]
  | cons f fs ih => cases f <;> simp [rawsOf, ih]

theorem mem_identsOf {c : String} {fs : List SqlFrag} :
    c ∈ identsOf fs ↔ SqlFrag.ident c ∈ fs := by
  induction fs with
  | nil => simp [identsOf]
  | cons f fs ih => cases f <;> simp [identsOf, ih]

theorem identsOf_sqlJoin_raw (sep : String) (ps : List (List SqlFrag)) :
    identsOf (sqlJoin [SqlFrag.raw sep] ps) = (ps.map identsOf).flatten := by
  induction ps with
  | nil => rfl
  | cons p ps ih =>
    cases ps with
    | nil => simp [sqlJoin]
    | cons q qs =>
      rw [sqlJoin, identsOf_append, identsOf_append, ih]
      simp [identsOf]

theorem mem_rawsOf_sqlJoin_raw {s sep : String} {ps : List (List SqlFrag)}
    (h : s ∈ rawsOf (sqlJoin [SqlFrag.raw sep] ps)) :
    s = sep ∨ ∃ p ∈ ps, s ∈ rawsOf p := by
  induction ps with
  | nil => simp [sqlJoin, rawsOf] at h
  | cons p ps ih =>
    cases ps with
    | nil =>
      rw [sqlJoin] at h
      exact Or.inr ⟨p, by simp, h⟩
    | cons q qs =>
      rw [sqlJoin, rawsOf_append, rawsOf_append] at h
      rcases List.mem_append.mp h with h1 | h2
      · rcases List.mem_append.mp h1 with hp | hsep
        · exact Or.inr ⟨p, by simp, hp⟩
        · simp [rawsOf] at hsep
          exact Or.inl hsep
      · rcases ih h2 with h | ⟨r, hr, hs⟩
        · exact Or.inl h
        · exact Or.inr ⟨r, by simp [hr], hs⟩

theorem flatten_map_singleton (l : List String) :
    (l.map fun c => [c]).flatten = l := by
  induction l with
  | nil => rfl
  | cons c cs ih => simp [ih]

/-- Identifiers of a joined identifier list are exactly the column
names, in order. -/
theorem identsOf_join_idents (sep : String) (cols : List String) :
    identsOf (sqlJoin [SqlFrag.raw sep] (cols.map fun c => [SqlFrag.ident c])) = cols := by
  rw [identsOf_sqlJoin_raw]
  have : (cols.map fun c => [SqlFrag.ident c]).map identsOf = cols.map fun c => [c] := by
    rw [List.map_map]; rfl
  rw [this, flatten_map_singleton]

/-- Identifiers of an equality clause are exactly its keys, in order. -/
theorem identsOf_eqClause (sep : String) (keys : List String) :
    identsOf (eqClause sep keys) = keys := by
  rw [eqClause, identsOf_sqlJoin_raw]
  have : (keys.map fun k => [SqlFrag.ident k, SqlFrag.raw "=%s"]).map identsOf
      = keys.map fun k => [k] := by
    rw [List.map_map]; rfl
  rw [this, flatten_map_singleton]

/-- A joined placeholder tuple contains no identifiers. -/
theorem identsOf_join_placeholders (sep : String) (n : Nat) :
    identsOf (sqlJoin [SqlFrag.raw sep] (List.replicate n [SqlFrag.placeholder])) = [] := by
  rw [identsOf_sqlJoin_raw]
  induction n with
  | zero => rfl
  | succ n ih => simp_all [List.replicate, identsOf]

theorem rawsOf_join_idents {s sep : String} {cols : List String}
    (h : s ∈ rawsOf (sqlJoin [SqlFrag.raw sep] (cols.map fun c => [SqlFrag.ident c]))) :
    s = sep := by
  rcases mem_rawsOf_sqlJoin_raw h with h | ⟨p, hp, hs⟩
  · exact h
  · rcases List.mem_map.mp hp with ⟨c, _, rfl⟩
    simp [rawsOf] at hs

theorem rawsOf_eqClause {s sep : String} {keys : List String}
    (h : s ∈ rawsOf (eqClause sep keys)) : s = sep ∨ s = "=%s" := by
  rcases mem_rawsOf_sqlJoin_raw h with h | ⟨p, hp, hs⟩
  · exact Or.inl h
  · rcases List.mem_map.mp hp with ⟨c, _, rfl⟩
    simp [rawsOf] at hs
    exact Or.inr hs

theorem rawsOf_join_placeholders {s sep : String} {n : Nat}
    (h : s ∈ rawsOf (sqlJoin [SqlFrag.raw sep] (List.replicate n [SqlFrag.placeholder]))) :
    s = sep := by
  rcases mem_rawsOf_sqlJoin_raw h with h | ⟨p, hp, hs⟩
  · exact h
  · rcases List.mem_replicate.mp hp with ⟨_, rfl⟩
    simp [rawsOf] at hs

/-!
Lemmas about dictionaries and the insert extraction phase.
-/

theorem dlookup_isSome_of_mem {d : Dict} {c : String} (h : c ∈ dkeys d) :
    (dlookup d c).isSome := by
  induction d with
  | nil => simp [dkeys] at h
  | cons p ps ih =>
    by_cases hp : p.1 = c
    · simp [dlookup, hp]
    · rw [dkeys, List.map_cons] at h
      rcases List.mem_cons.mp h with h | h
      · exact absurd h.symm hp
      · simpa [dlookup, hp] using ih h

theorem lookupAll_ok {d : Dict} {cs : List String}
    (h : ∀ c ∈ cs, (dlookup d c).isSome) :
    lookupAll d cs = .ok (cs.map fun c => (dlookup d c).getD Value.null) := by
  induction cs with
  | nil => rfl
  | cons c cs ih =>
    rcases Option.isSome_iff_exists.mp (h c (by simp)) with ⟨v, hv⟩
    rw [lookupAll, hv, ih fun c2 hc2 => h c2 (by simp [hc2])]
    simp [hv]

theorem rowsValues_ok {cols : List String} {ds : List Dict}
    (h : ∀ d ∈ ds, ∀ c ∈ cols, (dlookup d c).isSome) :
    rowsValues cols (ds.map RowItem.dict) =
      .ok (ds.map fun d => cols.map fun c => (dlookup d c).getD Value.null) := by
  induction ds with
  | nil => rfl
  | cons d ds ih =>
    rw [List.map_cons, rowsValues, rowLookup, lookupAll_ok (h d (by simp)),
      ih fun d2 hd2 => h d2 (by simp [hd2])]
    rfl

/-- Core lemma: a bulk insert whose later rows all contain the first
row's keys succeeds and emits one INSERT per row, binding each row's
values in the first row's key order. -/
theorem insert_ok (t : String) (d0 : Dict) (rest : List Dict)
    (h : ∀ d ∈ rest, ∀ c ∈ dkeys d0, (dlookup d c).isSome) :
    Database.insert t (.list ((d0 :: rest).map RowItem.dict)) =
      .ok ((d0 :: rest).map fun d =>
        ⟨insertFrags t (dkeys d0),
         (dkeys d0).map fun c => (dlookup d c).getD Value.null⟩) := by
  have hall : ∀ d ∈ d0 :: rest, ∀ c ∈ dkeys d0, (dlookup d c).isSome := by
    intro d hd c hc
    rcases List.mem_cons.mp hd with rfl | hd
    · exact dlookup_isSome_of_mem hc
    · exact h d hd c hc
  rw [show (d0 :: rest).map RowItem.dict = RowItem.dict d0 :: rest.map RowItem.dict from rfl,
    Database.insert, Database.insertPlan, planList,
    show RowItem.dict d0 :: rest.map RowItem.dict = (d0 :: rest).map RowItem.dict from rfl,
    rowsValues_ok hall]
  simp [List.map_map]

theorem insert_dict_eq_list (t : String) (d : Dict) :
    Database.insert t (.dict d) = Database.insert t (.list [RowItem.dict d]) := rfl

/-!
Lemmas about the relational-engine model.
-/

theorem getTable_setTable_self {st : DbState} {t : String} {tb tb2 : Table}
    (h : getTable st t = some tb) :
    getTable (setTable st t tb2) t = some tb2 := by
  induction st with
  | nil => simp [getTable] at h
  | cons p ps ih =>
    by_cases hp : p.1 = t
    · simp [getTable, setTable, hp]
    · rw [getTable, if_neg hp] at h
      rw [setTable, if_neg hp, getTable, if_neg hp]
      exact ih h

theorem setTable_self {st : DbState} {t : String} {tb : Table}
    (h : getTable st t = some tb) : setTable st t tb = st := by
  induction st with
  | nil => rfl
  | cons p ps ih =>
    by_cases hp : p.1 = t
    · rw [getTable, if_pos hp] at h
      rw [setTable, if_pos hp, ← Option.some_inj.mp h]
    · rw [getTable, if_neg hp] at h
      rw [setTable, if_neg hp, ih h]

theorem setTable_setTable {st : DbState} {t : String} (a b : Table) :
    setTable (setTable st t a) t b = setTable st t b := by
  induction st with
  | nil => rfl
  | cons p ps ih =>
    by_cases hp : p.1 = t
    · simp [setTable, hp]
    · simp [setTable, hp, ih]

theorem colIdx_isSome_of_mem {c : String} {l : List String} (h : c ∈ l) :
    (colIdx c l).isSome := by
  induction l with
  | nil => simp at h
  | cons x xs ih =>
    by_cases hx : x = c
    · simp [colIdx, hx]
    · rcases List.mem_cons.mp h with h | h
      · exact absurd h.symm hx
      · simpa [colIdx, hx, Option.isSome_map] using ih h

theorem nthVal_map_colIdx {c : String} {l : List String} {j : Nat}
    (g : String → Value) (h : colIdx c l = some j) :
    nthVal (l.map g) j = g c := by
  induction l generalizing j with
  | nil => simp [colIdx] at h
  | cons x xs ih =>
    by_cases hx : x = c
    · rw [colIdx, if_pos hx] at h
      rw [← Option.some_inj.mp h, List.map_cons, nthVal, hx]
    · rw [colIdx, if_neg hx] at h
      rcases Option.map_eq_some'.mp h with ⟨j0, hj0, rfl⟩
      rw [List.map_cons, nthVal, ih hj0]

theorem rowVal_map_self {c : String} {tc : List String} (f : String → Value)
    (h : c ∈ tc) : rowVal tc (tc.map f) c = some (f c) := by
  rcases Option.isSome_iff_exists.mp (colIdx_isSome_of_mem h) with ⟨j, hj⟩
  rw [rowVal, hj, Option.map_some', nthVal_map_colIdx f hj]

theorem unknownCol_none {tcols : List String} {cs : List String}
    (h : ∀ c ∈ cs, c ∈ tcols) : unknownCol tcols cs = none := by
  rw [unknownCol]
  apply List.find?_eq_none.mpr
  intro c hc
  have hs := colIdx_isSome_of_mem (h c hc)
  rcases Option.isSome_iff_exists.mp hs with ⟨j, hj⟩
  simp [hj]

/-- Engine INSERT with a valid non-empty duplicate-free column list
appends the aligned row. -/
theorem engineInsert_ok {st : DbState} {t : String} {tb : Table}
    {insCols : List String} {vals : List Value}
    (hget : getTable st t = some tb) (hne : insCols ≠ [])
    (hmem : ∀ c ∈ insCols, c ∈ tb.cols) (hnd : insCols.Nodup) :
    engineInsert st t insCols vals =
      .ok (setTable st t ⟨tb.cols, tb.rows ++ [mkRow tb.cols insCols vals]⟩) := by
  rw [engineInsert, if_neg hne, hget]
  show (match unknownCol tb.cols insCols with
    | some c => Except.error (SqlError.undefinedColumn c)
    | none =>
      if insCols.Nodup then
        Except.ok (setTable st t ⟨tb.cols, tb.rows ++ [mkRow tb.cols insCols vals]⟩)
      else Except.error SqlError.duplicateColumn) = _
  rw [unknownCol_none hmem, if_pos hnd]

/-- The per-row execute loop appends one aligned row per value list. -/
theorem runInserts_ok {insCols : List String} (vss : List (List Value))
    (st : DbState) (t : String) (tb : Table)
    (hget : getTable st t = some tb) (hne : insCols ≠ [])
    (hmem : ∀ c ∈ insCols, c ∈ tb.cols) (hnd : insCols.Nodup) :
    runInserts st t insCols vss =
      .ok (setTable st t ⟨tb.cols, tb.rows ++ vss.map (mkRow tb.cols insCols)⟩) := by
  induction vss generalizing st tb with
  | nil =>
    rw [runInserts, List.map_nil, List.append_nil]
    rw [setTable_self hget]
  | cons vs vss ih =>
    rw [runInserts, engineInsert_ok hget hne hmem hnd]
    show runInserts (setTable st t ⟨tb.cols, tb.rows ++ [mkRow tb.cols insCols vs]⟩)
        t insCols vss = _
    have h2 := ih (setTable st t ⟨tb.cols, tb.rows ++ [mkRow tb.cols insCols vs]⟩)
      ⟨tb.cols, tb.rows ++ [mkRow tb.cols insCols vs]⟩
      (getTable_setTable_self hget) hmem
    rw [h2, setTable_setTable, List.append_assoc, List.singleton_append, List.map_cons]

/-- Engine SELECT with no condition returns every row projected to the
select list, in order. -/
theorem engineSelect_nowhere {st : DbState} {t : String} {tb : Table}
    {projCols : List String}
    (hget : getTable st t = some tb) (hne : projCols ≠ [])
    (hmem : ∀ c ∈ projCols, c ∈ tb.cols) :
    engineSelect st t projCols [] =
      .ok (tb.rows.map fun row =>
        projCols.map fun c => (rowVal tb.cols row c).getD Value.null) := by
  rw [engineSelect, if_neg hne, hget]
  show (match unknownCol tb.cols (projCols ++ dkeys []) with
    | some c => Except.error (SqlError.undefinedColumn c)
    | none =>
      Except.ok ((tb.rows.filter fun row => rowMatches tb.cols row []).map
        fun row => projCols.map fun c => (rowVal tb.cols row c).getD Value.null)) = _
  have hcols : ∀ c ∈ projCols ++ dkeys ([] : Dict), c ∈ tb.cols := by
    intro c hc
    rcases List.mem_append.mp hc with hc | hc
    · exact hmem c hc
    · simp [dkeys] at hc
  rw [unknownCol_none hcols]
  have hfilter : (tb.rows.filter fun row => rowMatches tb.cols row []) = tb.rows := by
    simp [rowMatches]
  rw [hfilter]

/-- Projecting a freshly inserted row at a named column recovers the
bound value for that column. -/
theorem rowVal_mkRow {tc insCols : List String} {c : String}
    (g : String → Value)
    (hctc : c ∈ tc) (hcin : c ∈ insCols) :
    rowVal tc (mkRow tc insCols (insCols.map g)) c = some (g c) := by
  rw [mkRow, rowVal_map_self _ hctc]
  rcases Option.isSome_iff_exists.mp (colIdx_isSome_of_mem hcin) with ⟨j, hj⟩
  rw [hj]
  show some (nthVal (insCols.map g) j) = some (g c)
  rw [nthVal_map_colIdx g hj]

/-!
Rendering of the emitted statements as flat SQL text.
-/

/-- The textual shape `col=%s SEP col=%s SEP ...` of a rendered equality
clause, written the way the specification describes it. -/
def clauseText (sep : String) : List String → String
  | [] => ""
  | [k] => quoteIdent k ++ "=%s"
  | k :: k2 :: ks => quoteIdent k ++ "=%s" ++ sep ++ clauseText sep (k2 :: ks)

theorem renderFrags_eqClause (sep : String) (keys : List String) :
    renderFrags (eqClause sep keys) = clauseText sep keys := by
  induction keys with
  | nil => rfl
  | cons k ks ih =>
    cases ks with
    | nil =>
      show renderFrags [SqlFrag.ident k, SqlFrag.raw "=%s"] = quoteIdent k ++ "=%s"
      simp [renderFrags, SqlFrag.render]
    | cons k2 ks2 =>
      rw [show eqClause sep (k :: k2 :: ks2) = [SqlFrag.ident k, SqlFrag.raw "=%s"]
          ++ [SqlFrag.raw sep] ++ eqClause sep (k2 :: ks2) from rfl,
        renderFrags_append, renderFrags_append, ih,
        show clauseText sep (k :: k2 :: ks2) = quoteIdent k ++ "=%s" ++ sep
          ++ clauseText sep (k2 :: ks2) from rfl]
      simp [renderFrags, SqlFrag.render, String.append_assoc]

/-!
Identifier and raw-text characterization of each statement builder.
-/

theorem identsOf_insertFrags (t : String) (cols : List String) :
    identsOf (insertFrags t cols) = t :: cols := by
  simp [insertFrags, identsOf_append, identsOf_join_idents,
    identsOf_join_placeholders, identsOf]

theorem identsOf_selectFrags (t : String) (cols wkeys : List String) :
    identsOf (selectFrags t cols wkeys) = cols ++ t :: wkeys := by
  by_cases hw : wkeys = []
  · subst hw
    simp [selectFrags, identsOf_append, identsOf_join_idents, identsOf]
  · simp [selectFrags, hw, identsOf_append, identsOf_join_idents,
      identsOf_eqClause, identsOf]

theorem identsOf_updateFrags (t : String) (skeys wkeys : List String) :
    identsOf (updateFrags t skeys wkeys) = t :: (skeys ++ wkeys) := by
  simp [updateFrags, identsOf_append, identsOf_eqClause, identsOf]

theorem identsOf_deleteFrags (t : String) (wkeys : List String) :
    identsOf (deleteFrags t wkeys) = t :: wkeys := by
  simp [deleteFrags, identsOf_append, identsOf_eqClause, identsOf]

theorem identsOf_dropFrags (t : String) :
    identsOf (dropFrags t) = [t] := by
  simp [dropFrags, identsOf]

theorem identsOf_createTableFrags (t : String) (columns : List (String × String)) :
    identsOf (createTableFrags t columns) = [t] := by
  simp [createTableFrags, identsOf]

theorem rawsOf_insertFrags {s t : String} {cols : List String}
    (h : s ∈ rawsOf (insertFrags t cols)) : s ∈ dmlTemplates := by
  rw [insertFrags] at h
  simp only [rawsOf_append, List.mem_append] at h
  rcases h with ((((h | h) | h) | h) | h)
  · simp [rawsOf] at h
    simp [dmlTemplates]
    tauto
  · rw [rawsOf_join_idents h]
    simp [dmlTemplates]
  · simp [rawsOf] at h
    simp [dmlTemplates]
    tauto
  · rw [rawsOf_join_placeholders h]
    simp [dmlTemplates]
  · simp [rawsOf] at h
    simp [dmlTemplates]
    tauto

theorem rawsOf_selectFrags {s t : String} {cols wkeys : List String}
    (h : s ∈ rawsOf (selectFrags t cols wkeys)) : s ∈ dmlTemplates := by
  rw [selectFrags] at h
  by_cases hw : wkeys = []
  · rw [if_pos hw, List.append_nil] at h
    simp only [rawsOf_append, List.mem_append] at h
    rcases h with (h | h) | h
    · simp [rawsOf] at h
      simp [dmlTemplates, h]
    · rw [rawsOf_join_idents h]
      simp [dmlTemplates]
    · simp [rawsOf] at h
      simp [dmlTemplates, h]
  · rw [if_neg hw] at h
    simp only [rawsOf_append, List.mem_append] at h
    rcases h with ((h | h) | h) | h
    · simp [rawsOf] at h
      simp [dmlTemplates, h]
    · rw [rawsOf_join_idents h]
      simp [dmlTemplates]
    · simp [rawsOf] at h
      simp [dmlTemplates, h]
    · simp only [rawsOf] at h
      rcases List.mem_cons.mp h with rfl | h
      · simp [dmlTemplates]
      · rcases rawsOf_eqClause h with rfl | rfl <;> simp [dmlTemplates]

theorem rawsOf_updateFrags {s t : String} {skeys wkeys : List String}
    (h : s ∈ rawsOf (updateFrags t skeys wkeys)) : s ∈ dmlTemplates := by
  rw [updateFrags] at h
  simp only [rawsOf_append, List.mem_append] at h
  rcases h with ((h | h) | h) | h
  · simp [rawsOf] at h
    simp [dmlTemplates]
    tauto
  · rcases rawsOf_eqClause h with rfl | rfl <;> simp [dmlTemplates]
  · simp [rawsOf] at h
    simp [dmlTemplates, h]
  · rcases rawsOf_eqClause h with rfl | rfl <;> simp [dmlTemplates]

theorem rawsOf_deleteFrags {s t : String} {wkeys : List String}
    (h : s ∈ rawsOf (deleteFrags t wkeys)) : s ∈ dmlTemplates := by
  rw [deleteFrags] at h
  simp only [rawsOf_append, List.mem_append] at h
  rcases h with h | h
  · simp [rawsOf] at h
    simp [dmlTemplates]
    tauto
  · rcases rawsOf_eqClause h with rfl | rfl <;> simp [dmlTemplates]

theorem rawsOf_dropFrags {s t : String}
    (h : s ∈ rawsOf (dropFrags t)) : s ∈ dmlTemplates := by
  simp [dropFrags, rawsOf] at h
  simp [dmlTemplates, h]

/-!
Claim theorems.
-/

/-- C1 (counterexample): the claim says every caller-supplied column
name is interpolated only as a quoted identifier and only type
declarations enter verbatim; but `create_table` joins the column NAMES
into the same raw `sql.SQL(cols)` fragment as the types.  At the
concrete call `create_table("t", [("evil", "INT")])` the column name
`evil` appears inside a raw fragment and never as an identifier
fragment, and the rendered SQL interpolates it unquoted. -/
theorem create_table_column_name_not_escaped :
    SqlFrag.raw "evil INT" ∈ createTableFrags "t" [("evil", "INT")] ∧
    SqlFrag.ident "evil" ∉ createTableFrags "t" [("evil", "INT")] ∧
    renderFrags (createTableFrags "t" [("evil", "INT")]) =
      "CREATE TABLE IF NOT EXISTS \"t\" (evil INT)" := by
  refine ⟨by decide, by decide, by decide⟩

/-- C1 (amended): in the insert, select, update, delete and drop
builders every raw SQL text fragment is one of the fixed template
strings of `dmlTemplates` (a constant of the program, independent of all
caller input), and the identifier fragments are exactly the
caller-supplied table name and column/key names, each passed through the
identifier-escaping primitive; in `create_table`, by contrast, only the
table name is an identifier fragment and the whole column list — names
together with type declarations — is inserted verbatim as one raw SQL
fragment. -/
theorem identifier_escaping_discipline (t : String) (cols skeys wkeys : List String)
    (columns : List (String × String)) :
    (∀ s ∈ rawsOf (insertFrags t cols), s ∈ dmlTemplates) ∧
    identsOf (insertFrags t cols) = t :: cols ∧
    (∀ s ∈ rawsOf (selectFrags t cols wkeys), s ∈ dmlTemplates) ∧
    identsOf (selectFrags t cols wkeys) = cols ++ t :: wkeys ∧
    (∀ s ∈ rawsOf (updateFrags t skeys wkeys), s ∈ dmlTemplates) ∧
    identsOf (updateFrags t skeys wkeys) = t :: (skeys ++ wkeys) ∧
    (∀ s ∈ rawsOf (deleteFrags t wkeys), s ∈ dmlTemplates) ∧
    identsOf (deleteFrags t wkeys) = t :: wkeys ∧
    (∀ s ∈ rawsOf (dropFrags t), s ∈ dmlTemplates) ∧
    identsOf (dropFrags t) = [t] ∧
    identsOf (createTableFrags t columns) = [t] ∧
    SqlFrag.raw (createCols columns) ∈ createTableFrags t columns :=
  ⟨fun _ h => rawsOf_insertFrags h, identsOf_insertFrags t cols,
   fun _ h => rawsOf_selectFrags h, identsOf_selectFrags t cols wkeys,
   fun _ h => rawsOf_updateFrags h, identsOf_updateFrags t skeys wkeys,
   fun _ h => rawsOf_deleteFrags h, identsOf_deleteFrags t wkeys,
   fun _ h => rawsOf_dropFrags h, identsOf_dropFrags t,
   identsOf_createTableFrags t columns, by simp [createTableFrags]⟩

/-- Witness for the amended C1 theorem at a concrete call. -/
theorem identifier_escaping_discipline_witness :
    identsOf (insertFrags "tbl" ["a", "b"]) = ["tbl", "a", "b"] ∧
    " AND " ∈ dmlTemplates := by
  have h := identifier_escaping_discipline "tbl" ["a", "b"] ["a"] ["a", "b"]
    [("a", "INT")]
  exact ⟨h.2.1, h.2.2.2.2.2.2.1 " AND " (by decide)⟩

/-- C2: a valid insert call — a single mapping, or a non-empty sequence
of mappings whose later rows have the same key list as the first —
performs exactly one statement execution per row, and the statement
executed for row i binds exactly row i's values, in the column order
derived from the first row's keys. -/
theorem insert_one_execution_per_row (t : String) (d0 : Dict) (rest : List Dict)
    (h : ∀ d ∈ rest, dkeys d = dkeys d0) :
    Database.insert t (.dict d0) =
      .ok [⟨insertFrags t (dkeys d0),
        (dkeys d0).map fun c => (dlookup d0 c).getD Value.null⟩] ∧
    ∃ execs, Database.insert t (.list ((d0 :: rest).map RowItem.dict)) = .ok execs ∧
      execs.length = (d0 :: rest).length ∧
      ∀ (i : Nat) (d : Dict), (d0 :: rest)[i]? = some d →
        execs[i]? = some ⟨insertFrags t (dkeys d0),
          (dkeys d0).map fun c => (dlookup d c).getD Value.null⟩ := by
  have hsome : ∀ d ∈ rest, ∀ c ∈ dkeys d0, (dlookup d c).isSome := by
    intro d hd c hc
    exact dlookup_isSome_of_mem ((h d hd).symm ▸ hc)
  constructor
  · rw [insert_dict_eq_list,
      show [RowItem.dict d0] = ([d0] : List Dict).map RowItem.dict from rfl,
      insert_ok t d0 [] (by simp)]
    rfl
  · refine ⟨_, insert_ok t d0 rest hsome, ?_, ?_⟩
    · simp
    · intro i d hid
      rw [List.getElem?_map, hid, Option.map_some']

/-- Witness for C2 at a concrete two-row bulk insert. -/
theorem insert_one_execution_per_row_witness :
    Database.insert "t" (.dict [("a", Value.int 1)]) =
      .ok [⟨insertFrags "t" ["a"], [Value.int 1]⟩] ∧
    ∃ execs,
      Database.insert "t"
        (.list ([[("a", Value.int 1)], [("a", Value.int 2)]].map RowItem.dict)) =
        .ok execs ∧
      execs.length = 2 ∧
      ∀ (i : Nat) (d : Dict),
        ([[("a", Value.int 1)], [("a", Value.int 2)]] : List Dict)[i]? = some d →
        execs[i]? = some ⟨insertFrags "t" ["a"],
          ["a"].map fun c => (dlookup d c).getD Value.null⟩ := by
  have h := insert_one_execution_per_row "t" [("a", Value.int 1)]
    [[("a", Value.int 2)]] (by decide)
  exact ⟨h.1, h.2⟩

/-- C3: an update call with non-empty data and condition dicts executes
one statement whose text has the shape
`UPDATE <table> SET col=%s, ... WHERE col=%s AND ...` (columns in each
dict's own iteration order) and whose positional parameters are the data
values followed by the condition values. -/
theorem update_statement_shape_and_params (t : String) (data w : Dict)
    (_hd : data ≠ []) (_hw : w ≠ []) :
    ∃ e, Database.update t data w = [e] ∧
      renderFrags e.frags =
        "UPDATE " ++ quoteIdent t ++ " SET " ++ clauseText ", " (dkeys data)
          ++ " WHERE " ++ clauseText " AND " (dkeys w) ∧
      e.params = data.map Prod.snd ++ w.map Prod.snd := by
  refine ⟨_, rfl, ?_, rfl⟩
  rw [updateFrags]
  rw [renderFrags_append, renderFrags_append, renderFrags_append,
    renderFrags_eqClause, renderFrags_eqClause]
  simp [renderFrags, SqlFrag.render, String.append_assoc]

/-- Witness for C3 at a concrete update call. -/
theorem update_statement_shape_and_params_witness :
    ∃ e, Database.update "t" [("a", Value.int 9)] [("b", Value.int 2)] = [e] ∧
      renderFrags e.frags =
        "UPDATE " ++ quoteIdent "t" ++ " SET " ++ clauseText ", " ["a"]
          ++ " WHERE " ++ clauseText " AND " ["b"] ∧
      e.params = [Value.int 9, Value.int 2] :=
  update_statement_shape_and_params "t" [("a", Value.int 9)] [("b", Value.int 2)]
    (by decide) (by decide)

/-- C9: a bulk insert whose later rows contain all of the first row's
keys plus extra keys succeeds with no error, emits one statement per
row whose identifiers are only the table name and the FIRST row's keys,
and binds for every row exactly the values of the first row's keys —
the extra keys are neither validated nor inserted. -/
theorem insert_extra_keys_silently_ignored (t : String) (d0 : Dict) (rest : List Dict)
    (hsup : ∀ d ∈ rest, ∀ c ∈ dkeys d0, (dlookup d c).isSome)
    (_hextra : ∀ d ∈ rest, ∃ k ∈ dkeys d, k ∉ dkeys d0) :
    ∃ execs, Database.insert t (.list ((d0 :: rest).map RowItem.dict)) = .ok execs ∧
      execs.length = (d0 :: rest).length ∧
      (∀ e ∈ execs, e.frags = insertFrags t (dkeys d0) ∧
        ∀ c, SqlFrag.ident c ∈ e.frags → c = t ∨ c ∈ dkeys d0) ∧
      ∀ (i : Nat) (d : Dict), (d0 :: rest)[i]? = some d →
        execs[i]? = some ⟨insertFrags t (dkeys d0),
          (dkeys d0).map fun c => (dlookup d c).getD Value.null⟩ := by
  refine ⟨_, insert_ok t d0 rest hsup, ?_, ?_, ?_⟩
  · simp
  · intro e he
    rcases List.mem_map.mp he with ⟨d, _, rfl⟩
    refine ⟨rfl, fun c hc => ?_⟩
    have : c ∈ identsOf (insertFrags t (dkeys d0)) := mem_identsOf.mpr hc
    rw [identsOf_insertFrags] at this
    exact List.mem_cons.mp this
  · intro i d hid
    rw [List.getElem?_map, hid, Option.map_some']

/-- Witness for C9: the second row has the extra key `b`, which is
silently dropped. -/
theorem insert_extra_keys_silently_ignored_witness :
    ∃ execs,
      Database.insert "t"
        (.list ([[("a", Value.int 1)],
                 [("a", Value.int 2), ("b", Value.int 3)]].map RowItem.dict)) =
        .ok execs ∧
      execs.length = 2 ∧
      (∀ e ∈ execs, e.frags = insertFrags "t" ["a"] ∧
        ∀ c, SqlFrag.ident c ∈ e.frags → c = "t" ∨ c ∈ (["a"] : List String)) ∧
      ∀ (i : Nat) (d : Dict),
        ([[("a", Value.int 1)],
          [("a", Value.int 2), ("b", Value.int 3)]] : List Dict)[i]? = some d →
        execs[i]? = some ⟨insertFrags "t" ["a"],
          ["a"].map fun c => (dlookup d c).getD Value.null⟩ :=
  insert_extra_keys_silently_ignored "t" [("a", Value.int 1)]
    [[("a", Value.int 2), ("b", Value.int 3)]] (by decide) (by decide)

/-!
Error-path lemmas for insert.
-/

theorem lookupAll_error {d : Dict} {cs : List String}
    (h : ∃ c ∈ cs, dlookup d c = none) :
    ∃ c ∈ cs, lookupAll d cs = .error (.keyError c) := by
  induction cs with
  | nil => simp at h
  | cons c cs ih =>
    cases hc : dlookup d c with
    | none => exact ⟨c, by simp, by rw [lookupAll, hc]⟩
    | some v =>
      have h2 : ∃ c2 ∈ cs, dlookup d c2 = none := by
        rcases h with ⟨c2, hm, hnone⟩
        rcases List.mem_cons.mp hm with rfl | hm
        · rw [hc] at hnone
          exact absurd hnone (by simp)
        · exact ⟨c2, hm, hnone⟩
      rcases ih h2 with ⟨c2, hm2, herr⟩
      refine ⟨c2, by simp [hm2], ?_⟩
      rw [lookupAll, hc, herr]

theorem rowsValues_error {cols : List String} {ds : List Dict}
    (h : ∃ d ∈ ds, ∃ c ∈ cols, dlookup d c = none) :
    ∃ c ∈ cols, rowsValues cols (ds.map RowItem.dict) = .error (.keyError c) := by
  induction ds with
  | nil => simp at h
  | cons d ds ih =>
    by_cases hd : ∃ c ∈ cols, dlookup d c = none
    · rcases lookupAll_error hd with ⟨c, hm, herr⟩
      exact ⟨c, hm, by rw [List.map_cons, rowsValues, rowLookup, herr]⟩
    · have hall : ∀ c ∈ cols, (dlookup d c).isSome := by
        intro c hc
        cases ho : dlookup d c with
        | none => exact absurd ⟨c, hc, ho⟩ hd
        | some v => simp
      have h2 : ∃ d2 ∈ ds, ∃ c ∈ cols, dlookup d2 c = none := by
        rcases h with ⟨d2, hm, hx⟩
        rcases List.mem_cons.mp hm with rfl | hm
        · exact absurd hx hd
        · exact ⟨d2, hm, hx⟩
      rcases ih h2 with ⟨c, hm, herr⟩
      refine ⟨c, hm, ?_⟩
      rw [List.map_cons, rowsValues, rowLookup, lookupAll_ok hall, herr]

/-- C4 (counterexample): two row dicts with different key sets — the
second has the extra key `b` — are not rejected: insert succeeds and
executes two statements, contradicting the claim that every
inconsistent key set fails with a validation error before execution. -/
theorem insert_inconsistent_keys_not_rejected :
    dkeys [("a", Value.int 1)] ≠
      dkeys [("a", Value.int 2), ("b", Value.int 3)] ∧
    Database.insert "t"
      (.list [RowItem.dict [("a", Value.int 1)],
              RowItem.dict [("a", Value.int 2), ("b", Value.int 3)]]) =
      .ok [⟨insertFrags "t" ["a"], [Value.int 1]⟩,
           ⟨insertFrags "t" ["a"], [Value.int 2]⟩] :=
  ⟨by decide, rfl⟩

/-- C4 (amended): a bulk insert is rejected before any statement
execution only when some later row is MISSING one of the first row's
keys, and the rejection is a key lookup error (KeyError), not the
explicit validation error; the end-to-end run then fails with the
Python error, so nothing reaches the engine.  (Rows with extra keys
beyond the first row's are accepted silently, per the counterexample.) -/
theorem insert_missing_key_fails_before_execution (st : DbState) (t : String)
    (d0 : Dict) (rest : List Dict)
    (hmiss : ∃ d ∈ rest, ∃ c ∈ dkeys d0, dlookup d c = none) :
    ∃ c ∈ dkeys d0,
      Database.insert t (.list ((d0 :: rest).map RowItem.dict)) =
        .error (.keyError c) ∧
      Database.insertRun st t (.list ((d0 :: rest).map RowItem.dict)) =
        .error (.py (.keyError c)) := by
  have hx : ∃ d ∈ d0 :: rest, ∃ c ∈ dkeys d0, dlookup d c = none := by
    rcases hmiss with ⟨d, hm, hc⟩
    exact ⟨d, by simp [hm], hc⟩
  rcases rowsValues_error hx with ⟨c, hm, herr⟩
  have hplan : Database.insertPlan (.list ((d0 :: rest).map RowItem.dict)) =
      .error (.keyError c) := by
    rw [show (d0 :: rest).map RowItem.dict = RowItem.dict d0 :: rest.map RowItem.dict
        from rfl, Database.insertPlan, planList,
      show RowItem.dict d0 :: rest.map RowItem.dict = (d0 :: rest).map RowItem.dict
        from rfl, herr]
  refine ⟨c, hm, ?_, ?_⟩
  · rw [Database.insert, hplan]
  · rw [Database.insertRun, hplan]

/-- Witness for the amended C4: the second row lacks the first row's
key `b`. -/
theorem insert_missing_key_fails_before_execution_witness :
    ∃ c ∈ dkeys [("a", Value.int 1), ("b", Value.int 2)],
      Database.insert "t"
        (.list (([[("a", Value.int 1), ("b", Value.int 2)],
                  [("a", Value.int 3)]] : List Dict).map RowItem.dict)) =
        .error (.keyError c) ∧
      Database.insertRun [] "t"
        (.list (([[("a", Value.int 1), ("b", Value.int 2)],
                  [("a", Value.int 3)]] : List Dict).map RowItem.dict)) =
        .error (.py (.keyError c)) :=
  insert_missing_key_fails_before_execution [] "t"
    [("a", Value.int 1), ("b", Value.int 2)] [[("a", Value.int 3)]] (by decide)

/-- C5 (counterexample): an empty sequence is one of the claim's
invalid shapes, but it fails with the IndexError of `data[0]`, not with
the validation ValueError the claim requires. -/
theorem insert_empty_list_raises_index_error :
    Database.insert "t" (.list []) = .error .indexError ∧
    ∀ m, PyErr.indexError ≠ PyErr.valueError m :=
  ⟨rfl, fun _ h => PyErr.noConfusion h⟩

/-- C5 (amended): insert given a non-mapping, non-sequence-of-mappings
argument always fails before building or executing any statement, but
the error depends on the shape: TypeError for a non-subscriptable
scalar, IndexError for an empty sequence, and the explicit validation
ValueError only when the sequence's first element is not a mapping;
whenever insert fails with a Python error, the end-to-end run fails with
that same error and no engine statement is executed. -/
theorem insert_invalid_shape_errors_before_any_execution :
    (∀ (t : String) (v : Value),
      Database.insert t (.scalar v) = .error .typeError) ∧
    (∀ t : String, Database.insert t (.list []) = .error .indexError) ∧
    (∀ (t : String) (vs : List Value) (rest : List RowItem),
      Database.insert t (.list (.tup vs :: rest)) =
        .error (.valueError insertValueErrorMsg)) ∧
    ∀ (st : DbState) (t : String) (data : InsertData) (e : PyErr),
      Database.insert t data = .error e →
      Database.insertRun st t data = .error (.py e) := by
  refine ⟨fun t v => rfl, fun t => rfl, fun t vs rest => rfl, ?_⟩
  intro st t data e h
  rw [Database.insert] at h
  rw [Database.insertRun]
  cases hp : Database.insertPlan data with
  | error e2 =>
    rw [hp] at h
    have he : e2 = e := by
      injection h
    rw [he]
  | ok pair =>
    rw [hp] at h
    simp at h

/-- Witness for the amended C5 at the three concrete invalid shapes. -/
theorem insert_invalid_shape_errors_witness :
    Database.insert "t" (.scalar (Value.int 7)) = .error .typeError ∧
    Database.insert "t" (.list []) = .error .indexError ∧
    Database.insert "t" (.list [.tup [Value.int 1]]) =
      .error (.valueError insertValueErrorMsg) ∧
    Database.insertRun [] "t" (.list []) = .error (.py .indexError) :=
  ⟨insert_invalid_shape_errors_before_any_execution.1 "t" (Value.int 7),
   insert_invalid_shape_errors_before_any_execution.2.1 "t",
   insert_invalid_shape_errors_before_any_execution.2.2.1 "t" [Value.int 1] [],
   insert_invalid_shape_errors_before_any_execution.2.2.2 [] "t" (.list [])
     .indexError rfl⟩

/-- C6 (counterexample): on a two-row table, update and delete with an
empty condition dict do not silently mutate the whole table — their
execution fails with a SQL syntax error, because the emitted statement
text keeps the WHERE keyword followed by an empty predicate. -/
theorem empty_condition_not_whole_table_mutation :
    Database.updateRun [("t", ⟨["a"], [[Value.int 1], [Value.int 2]]⟩)] "t"
      [("a", Value.int 9)] [] = .error .syntaxError ∧
    Database.deleteRun [("t", ⟨["a"], [[Value.int 1], [Value.int 2]]⟩)] "t" [] =
      .error .syntaxError ∧
    renderFrags (updateFrags "t" ["a"] []) = "UPDATE \"t\" SET \"a\"=%s WHERE " ∧
    renderFrags (deleteFrags "t" []) = "DELETE FROM \"t\" WHERE " :=
  ⟨rfl, rfl, by decide, by decide⟩

/-- C6 (amended): update and delete with an empty condition dict are not
rejected by the helper — each still builds and executes exactly one
statement, with no validation — but the emitted statement ends in the
WHERE keyword with an empty predicate, so it is malformed SQL and the
engine reports a syntax error instead of performing a whole-table
mutation. -/
theorem empty_condition_dangling_where (st : DbState) (t : String) (data : Dict) :
    (Database.update t data []).length = 1 ∧
    (Database.delete t []).length = 1 ∧
    updateFrags t (dkeys data) [] =
      ([SqlFrag.raw "UPDATE ", SqlFrag.ident t, SqlFrag.raw " SET "]
        ++ eqClause ", " (dkeys data)) ++ [SqlFrag.raw " WHERE "] ∧
    deleteFrags t [] =
      [SqlFrag.raw "DELETE FROM ", SqlFrag.ident t, SqlFrag.raw " WHERE "] ∧
    Database.updateRun st t data [] = .error .syntaxError ∧
    Database.deleteRun st t [] = .error .syntaxError := by
  refine ⟨rfl, rfl, ?_, ?_, ?_, rfl⟩
  · rw [updateFrags, show eqClause " AND " [] = [] from rfl, List.append_nil]
  · rw [deleteFrags, show eqClause " AND " [] = [] from rfl, List.append_nil]
  · rw [Database.updateRun, engineUpdate]
    rcases data with _ | ⟨p, ps⟩
    · rw [if_pos rfl]
    · rw [if_neg (by simp), if_pos rfl]

/-- C7 (counterexample): with the table present in the catalog and a
column count (3) different from the requested number (2), the code
reports already-existed, not the creation-failure the claim ties to a
count mismatch after a reported success; and with the table absent the
code reports the failure outcome even though the claim's rule (equal
count means newly created, otherwise already existed) leaves no such
case. -/
theorem create_outcome_counterexample :
    (Database.create_table "t" [("a", "INT"), ("b", "INT")] true 3).2 =
      CreateOutcome.alreadyExisted ∧
    (Database.create_table "t" [("a", "INT")] false 0).2 =
      CreateOutcome.creationFailed :=
  ⟨rfl, rfl⟩

/-- C7 (amended): create_table reports exactly one of three outcomes,
determined by the catalog answers: creation failed exactly when the
table is absent from the catalog after the statement; newly created
exactly when it is present and the catalog column count equals the
requested number; already existed exactly when it is present with a
different count.  The first executed statement is always the composed
CREATE TABLE IF NOT EXISTS statement. -/
theorem create_table_outcome_trichotomy (t : String)
    (columns : List (String × String)) (tExists : Bool) (colCount : Nat) :
    ((Database.create_table t columns tExists colCount).2 =
        CreateOutcome.creationFailed ↔ tExists = false) ∧
    ((Database.create_table t columns tExists colCount).2 =
        CreateOutcome.newlyCreated ↔
      tExists = true ∧ colCount = columns.length) ∧
    ((Database.create_table t columns tExists colCount).2 =
        CreateOutcome.alreadyExisted ↔
      tExists = true ∧ colCount ≠ columns.length) ∧
    (Database.create_table t columns tExists colCount).1.head? =
      some ⟨createTableFrags t columns, []⟩ := by
  cases tExists <;> by_cases hc : colCount = columns.length <;>
    simp [Database.create_table, hc]

/-- C8: after a successful insert of rows whose keys cover the table's
columns, a select projecting those columns (in any order, with no
condition) succeeds on the resulting state and its result contains, for
every inserted row, the tuple of that row's values in the order of the
select call's column list.  Row order within the result is not
constrained by the claim; membership is what is asserted. -/
theorem insert_select_round_trip (st : DbState) (t : String) (tb : Table)
    (d0 : Dict) (rest : List Dict) (projCols : List String)
    (hget : getTable st t = some tb)
    (hnd : (dkeys d0).Nodup) (hne : dkeys d0 ≠ [])
    (hcols : ∀ c ∈ dkeys d0, c ∈ tb.cols)
    (hrows : ∀ d ∈ rest, ∀ c ∈ dkeys d0, (dlookup d c).isSome)
    (hproj : ∀ c ∈ projCols, c ∈ dkeys d0) (hpne : projCols ≠ []) :
    ∃ st2,
      Database.insertRun st t (.list ((d0 :: rest).map RowItem.dict)) = .ok st2 ∧
      ∃ res, Database.selectRun st2 t projCols none = .ok (st2, res) ∧
        ∀ d ∈ d0 :: rest,
          (projCols.map fun c => (dlookup d c).getD Value.null) ∈ res := by
  have hall : ∀ d ∈ d0 :: rest, ∀ c ∈ dkeys d0, (dlookup d c).isSome := by
    intro d hd c hc
    rcases List.mem_cons.mp hd with rfl | hd
    · exact dlookup_isSome_of_mem hc
    · exact hrows d hd c hc
  have hplan : Database.insertPlan (.list ((d0 :: rest).map RowItem.dict)) =
      .ok (dkeys d0, (d0 :: rest).map fun d =>
        (dkeys d0).map fun c => (dlookup d c).getD Value.null) := by
    rw [show (d0 :: rest).map RowItem.dict = RowItem.dict d0 :: rest.map RowItem.dict
        from rfl, Database.insertPlan, planList,
      show RowItem.dict d0 :: rest.map RowItem.dict = (d0 :: rest).map RowItem.dict
        from rfl, rowsValues_ok hall]
  have hrun := runInserts_ok
    ((d0 :: rest).map fun d => (dkeys d0).map fun c => (dlookup d c).getD Value.null)
    st t tb hget hne hcols hnd
  refine ⟨setTable st t ⟨tb.cols, tb.rows ++
      ((d0 :: rest).map fun d =>
        (dkeys d0).map fun c => (dlookup d c).getD Value.null).map
          (mkRow tb.cols (dkeys d0))⟩, ?_, ?_⟩
  · rw [Database.insertRun, hplan]
    show (match runInserts st t (dkeys d0)
        ((d0 :: rest).map fun d =>
          (dkeys d0).map fun c => (dlookup d c).getD Value.null) with
      | Except.error e => Except.error (OpErr.sql e)
      | Except.ok st2 => Except.ok st2) = _
    rw [hrun]
  · have hget2 := @getTable_setTable_self st t tb
      ⟨tb.cols, tb.rows ++
        ((d0 :: rest).map fun d =>
          (dkeys d0).map fun c => (dlookup d c).getD Value.null).map
            (mkRow tb.cols (dkeys d0))⟩ hget
    have hmem2 : ∀ c ∈ projCols,
        c ∈ (⟨tb.cols, tb.rows ++
          ((d0 :: rest).map fun d =>
            (dkeys d0).map fun c => (dlookup d c).getD Value.null).map
              (mkRow tb.cols (dkeys d0))⟩ : Table).cols :=
      fun c hc => hcols c (hproj c hc)
    have hsel := engineSelect_nowhere hget2 hpne hmem2
    refine ⟨(tb.rows ++
        ((d0 :: rest).map fun d =>
          (dkeys d0).map fun c => (dlookup d c).getD Value.null).map
            (mkRow tb.cols (dkeys d0))).map
        (fun row => projCols.map fun c => (rowVal tb.cols row c).getD Value.null),
      ?_, ?_⟩
    · rw [Database.selectRun, show whereList none = [] from rfl, hsel]
    · intro d hd
      have hrowmem :
          mkRow tb.cols (dkeys d0)
            ((dkeys d0).map fun c => (dlookup d c).getD Value.null) ∈
          tb.rows ++
            ((d0 :: rest).map fun d =>
              (dkeys d0).map fun c => (dlookup d c).getD Value.null).map
                (mkRow tb.cols (dkeys d0)) := by
        apply List.mem_append_right
        rw [List.map_map]
        exact List.mem_map_of_mem _ hd
      have hprojeq :
          (projCols.map fun c =>
            (rowVal tb.cols
              (mkRow tb.cols (dkeys d0)
                ((dkeys d0).map fun c => (dlookup d c).getD Value.null)) c).getD
              Value.null) =
          projCols.map fun c => (dlookup d c).getD Value.null := by
        apply List.map_congr_left
        intro c hc
        rw [rowVal_mkRow (fun c => (dlookup d c).getD Value.null)
          (hcols c (hproj c hc)) (hproj c hc)]
        rfl
      exact hprojeq ▸ List.mem_map_of_mem _ hrowmem

/-- Witness for C8: a single row inserted into an empty three-column
table is found again by a full projection. -/
theorem insert_select_round_trip_witness :
    ∃ st2,
      Database.insertRun [("t", ⟨["a", "b", "c"], []⟩)] "t"
        (.list (([[("a", Value.int 1), ("b", Value.int 2), ("c", Value.int 3)]] :
          List Dict).map RowItem.dict)) = .ok st2 ∧
      ∃ res, Database.selectRun st2 "t" ["a", "b", "c"] none = .ok (st2, res) ∧
        ∀ d ∈ ([[("a", Value.int 1), ("b", Value.int 2), ("c", Value.int 3)]] :
          List Dict),
          (["a", "b", "c"].map fun c => (dlookup d c).getD Value.null) ∈ res :=
  insert_select_round_trip [("t", ⟨["a", "b", "c"], []⟩)] "t" ⟨["a", "b", "c"], []⟩
    [("a", Value.int 1), ("b", Value.int 2), ("c", Value.int 3)] [] ["a", "b", "c"]
    rfl (by decide) (by decide) (by decide) (by decide) (by decide) (by decide)

/-- C10: every select call executes exactly one statement, that
statement is a SELECT (its leading fragment is the literal text
`SELECT `), and a successful execution returns the database state
unchanged together with the result rows. -/
theorem select_single_statement_no_state_change (st : DbState) (t : String)
    (cols : List String) (w : Option Dict) :
    (Database.select t cols w).length = 1 ∧
    (∀ e ∈ Database.select t cols w,
      e.frags.head? = some (SqlFrag.raw "SELECT ")) ∧
    ∀ (st2 : DbState) (res : List (List Value)),
      Database.selectRun st t cols w = .ok (st2, res) → st2 = st := by
  refine ⟨rfl, ?_, ?_⟩
  · intro e he
    rcases List.mem_singleton.mp he with rfl
    rfl
  · intro st2 res h
    rw [Database.selectRun] at h
    cases hs : engineSelect st t cols (whereList w) with
    | error e =>
      rw [hs] at h
      exact absurd h (by simp)
    | ok rs =>
      rw [hs] at h
      have h2 : (st, rs) = (st2, res) := by
        injection h
      exact (congrArg Prod.fst h2).symm

/-- Witness for C10 at a concrete state and query. -/
theorem select_single_statement_no_state_change_witness :
    (Database.select "t" ["a"] none).length = 1 ∧
    (⟨selectFrags "t" ["a"] [], []⟩ : Exec).frags.head? =
      some (SqlFrag.raw "SELECT ") ∧
    ([("t", (⟨["a"], [[Value.int 1]]⟩ : Table))] : DbState) =
      [("t", ⟨["a"], [[Value.int 1]]⟩)] :=
  ⟨(select_single_statement_no_state_change [] "t" ["a"] none).1,
   (select_single_statement_no_state_change [] "t" ["a"] none).2.1 _
     (List.mem_singleton.mpr rfl),
   (select_single_statement_no_state_change
      [("t", ⟨["a"], [[Value.int 1]]⟩)] "t" ["a"] none).2.2 _ [[Value.int 1]] rfl⟩
